import Mathlib

/-!
Verification of the memory-kind-aware collective buffer reduction protocol
implemented in `examples-src/mem_alloc_cuda_example.cpp`.

The development shallowly embeds the program:
* the capability-string parser (the `strsep`/`strcasecmp` loop, lines 29-53);
* the negotiation over group-wide logical-AND reductions (lines 69-101);
* a lockstep value model of the three reduction paths (lines 106-157);
* a per-process event-trace model of the whole `main` body, recording
  host accesses, asynchronous copies, stream synchronizations, collective
  calls with their communicator, communicator creation/release, frees,
  and the process exit code.
-/

namespace MemAlloc

/-- Memory allocation kinds, ordered by preference Managed > Device > System. -/
inductive MemKind where
  | System
  | Device
  | Managed
  deriving DecidableEq, Repr

/-- Per-process capability flags, as computed by the parsing loop:
`cuda_managed_aware` and `cuda_device_aware` (lines 10-11, 42-49). -/
structure Caps where
  managed : Bool
  device : Bool
  deriving DecidableEq, Repr

/-- Group-wide `MPI_Allreduce` with `MPI_LAND` over one boolean per process. -/
def allAnd (bs : List Bool) : Bool := bs.foldr (fun a b => a && b) true

/-- The negotiation of lines 69-101: AND-reduce the local `cuda_managed_aware`
flags; if globally true the outcome is Managed, otherwise AND-reduce the local
`cuda_device_aware` flags; if globally true the outcome is Device, else System. -/
def negotiate (caps : List Caps) : MemKind :=
  if allAnd (caps.map Caps.managed) then MemKind.Managed
  else if allAnd (caps.map Caps.device) then MemKind.Device
  else MemKind.System

/-- Whether one process's capability set supports a kind; System is assumed
universally available. -/
def kindSupported (c : Caps) : MemKind → Bool
  | MemKind.System => true
  | MemKind.Device => c.device
  | MemKind.Managed => c.managed

/-- A kind is commonly supported when every process's set supports it. -/
def commonlySupported (caps : List Caps) (k : MemKind) : Bool :=
  caps.all (fun c => kindSupported c k)

/-- Preference rank: Managed > Device > System. -/
def pref : MemKind → Nat
  | MemKind.System => 0
  | MemKind.Device => 1
  | MemKind.Managed => 2

/-- `strsep(&val, ",")` stepping: split a character list at every comma;
consecutive commas yield empty tokens, exactly as `strsep` does. -/
def strsepGo : List Char → List Char → List (List Char)
  | [], acc => [acc.reverse]
  | c :: rest, acc =>
    if c = ',' then acc.reverse :: strsepGo rest []
    else strsepGo rest (c :: acc)

/-- All tokens produced by the `strsep` loop over the value string. -/
def strsepSplit (s : List Char) : List (List Char) := strsepGo s []

/-- `strcasecmp(a, b) == 0`: case-insensitive string equality. -/
def strcaseEq (a b : List Char) : Bool :=
  a.map Char.toLower == b.map Char.toLower

/-- The `while ((kind = strsep(&val, ","))) { ... }` loop of lines 42-49,
threading the two awareness flags through the token list. -/
def parseLoop : List (List Char) → Bool → Bool → Caps
  | [], m, d => Caps.mk m d
  | k :: rest, m, d =>
    if strcaseEq k ("cuda:managed".data) then parseLoop rest true d
    else if strcaseEq k ("cuda:device".data) then parseLoop rest m true
    else parseLoop rest m d

/-- Lines 29-53: if the info key is absent (`flag == 0`) both awareness flags
stay 0 (the empty capability set); otherwise the value string is split on
commas and each token is compared case-insensitively against the kind
identifiers, unrecognized tokens being ignored. -/
def parseKinds (flag : Bool) (s : List Char) : Caps :=
  if flag then parseLoop (strsepSplit s) false false else Caps.mk false false

/-- Modelled from the spec: whitespace trimming of a token. The claim for the
parser says tokens are trimmed before comparison; the source performs no such
trimming, so this definition exists only to state the claim's version. -/
def trimWS (t : List Char) : List Char :=
  ((t.dropWhile Char.isWhitespace).reverse.dropWhile Char.isWhitespace).reverse

/-- Modelled from the spec: the claim's matching relation — some
comma-separated token, after trimming and case folding, equals the given kind
identifier. -/
def specTokenMatch (s idc : List Char) : Bool :=
  (strsepSplit s).any (fun t => strcaseEq (trimWS t) idc)

/-- Final per-process buffer contents at the moment the buffers are freed
(`none` means the pointer was never allocated on the path taken). -/
structure PState where
  managed_buf : Option Int
  device_buf : Option Int
  system_buf : Option Int
  deriving DecidableEq, Repr

/-- Sum across the group (the `MPI_SUM` combination function). -/
def sumOf (vals : List Int) : Int := vals.foldr (fun a b => a + b) 0

/-- In-place `MPI_Allreduce(MPI_IN_PLACE, buf, 1, MPI_INT, MPI_SUM, comm)`:
every process's value is replaced by the group-wide sum. -/
def allreduceSum (vals : List Int) : List Int :=
  List.replicate vals.length (sumOf vals)

/-- Lockstep value model of lines 106-157, one entry per process: the final
buffer contents paired with the value read at the verification `assert`
(`*managed_buf` on the managed path, `*device_buf` on the device path, and the
host scratch `*system_buf` on the staged fallback path). All processes follow
the same path because the branch flags are the group-wide AND results. Host
and device buffers are seeded from `*system_buf = 1` followed by the
host-to-device staging copy; on the fallback path the device-to-host copy,
the reduction on the host scratch, and the host-to-device copy back leave
both buffers holding the group sum. -/
def groupExec (caps : List Caps) : List (PState × Int) :=
  if allAnd (caps.map Caps.managed) then
    (allreduceSum (List.replicate caps.length 1)).map
      (fun v => (PState.mk (some v) none none, v))
  else if allAnd (caps.map Caps.device) then
    ((List.replicate caps.length (1 : Int)).zip
        (allreduceSum (List.replicate caps.length 1))).map
      (fun p => (PState.mk none (some p.2) (some p.1), p.2))
  else
    ((allreduceSum (List.replicate caps.length 1)).zip
        (allreduceSum (List.replicate caps.length 1))).map
      (fun p => (PState.mk none (some p.2) (some p.1), p.1))

/-- Buffers host pointers can refer to in `main`; the two awareness flags and
the capability scratch string live in host (System) memory. -/
inductive BufId where
  | managed_buf
  | device_buf
  | system_buf
  | flag_managed
  | flag_device
  | cap_scratch
  deriving DecidableEq, Repr

/-- The three communicators of `main`. -/
inductive CommId where
  | system_comm
  | cuda_managed_comm
  | cuda_device_comm
  deriving DecidableEq, Repr

/-- The memory kind of the region each buffer identifier denotes. -/
def bufKind : BufId → MemKind
  | BufId.managed_buf => MemKind.Managed
  | BufId.device_buf => MemKind.Device
  | _ => MemKind.System

/-- The memory kind each communicator asserts at creation
(`mpi_assert_memory_alloc_kinds`). -/
def commKind : CommId → MemKind
  | CommId.system_comm => MemKind.System
  | CommId.cuda_managed_comm => MemKind.Managed
  | CommId.cuda_device_comm => MemKind.Device

/-- Observable events of one process's run of `main`. -/
inductive Event where
  | hostWrite (b : BufId)
  | hostRead (b : BufId)
  | asyncCopy (src dst : BufId)
  | streamSync
  | collective (b : BufId) (c : CommId)
  | commCreate (c : CommId)
  | commFree (c : CommId)
  | bufFree (b : BufId)
  | sessionFinalize
  deriving DecidableEq, Repr

/-- Per-process event trace and exit code of `main` (lines 23-167),
parameterized by whether the capability info key was present (`flag` at line
33), whether the scratch `malloc` of line 36 succeeded, and the two
group-wide AND results (`cuda_managed_aware` after line 69,
`cuda_device_aware` after line 85). When the scratch allocation fails the
function returns 1 at line 37, before the world group is derived and before
any communicator creation or collective call. -/
def mainTrace (flagPresent mallocOk globM globD : Bool) :
    List Event × Nat :=
  if flagPresent && !mallocOk then ([], 1)
  else
    ((if flagPresent then
        [Event.hostWrite BufId.cap_scratch, Event.hostRead BufId.cap_scratch,
         Event.bufFree BufId.cap_scratch]
      else []) ++
     ([Event.commCreate CommId.system_comm,
       Event.collective BufId.flag_managed CommId.system_comm] ++
      (if globM then [Event.commCreate CommId.cuda_managed_comm]
       else
        [Event.collective BufId.flag_device CommId.system_comm] ++
        (if globD then [Event.commCreate CommId.cuda_device_comm]
         else []))) ++
     (if globM then
        [Event.hostWrite BufId.managed_buf,
         Event.collective BufId.managed_buf CommId.cuda_managed_comm,
         Event.hostRead BufId.managed_buf,
         Event.bufFree BufId.managed_buf]
      else
        [Event.hostWrite BufId.system_buf,
         Event.asyncCopy BufId.system_buf BufId.device_buf,
         Event.streamSync] ++
        (if globD then
          [Event.collective BufId.device_buf CommId.cuda_device_comm,
           Event.hostRead BufId.device_buf]
         else
          [Event.asyncCopy BufId.device_buf BufId.system_buf,
           Event.streamSync,
           Event.collective BufId.system_buf CommId.system_comm,
           Event.asyncCopy BufId.system_buf BufId.device_buf,
           Event.streamSync,
           Event.hostRead BufId.system_buf]) ++
        [Event.bufFree BufId.device_buf, Event.bufFree BufId.system_buf]) ++
     ((if globM then [Event.commFree CommId.cuda_managed_comm] else []) ++
      (if !globM && globD then [Event.commFree CommId.cuda_device_comm]
       else []) ++
      [Event.commFree CommId.system_comm, Event.sessionFinalize]), 0)

/-- Is the event a collective call? -/
def isCollective : Event → Bool
  | Event.collective _ _ => true
  | _ => false

/-- Is the event a group-wide operation (collective call or communicator
creation)? -/
def isGroupOp : Event → Bool
  | Event.collective _ _ => true
  | Event.commCreate _ => true
  | _ => false

/-- Number of creations of a given communicator in a trace. -/
def createCount (tr : List Event) (c : CommId) : Nat :=
  tr.countP (fun e => e == Event.commCreate c)

/-- Number of releases of a given communicator in a trace. -/
def freeCount (tr : List Event) (c : CommId) : Nat :=
  tr.countP (fun e => e == Event.commFree c)

/-- Is the event a communicator release? -/
def isCommFree : Event → Bool
  | Event.commFree _ => true
  | _ => false

/-- The communicator-lifecycle invariant of the claim: exactly one baseline
System communicator created before any collective, at most one additional
communicator (for the negotiated accelerator kind only), every created
communicator released exactly once, never-created communicators never
released, and all releases before session finalization. -/
def commLifecycleOk (tr : List Event) (globM globD : Bool) : Bool :=
  createCount tr CommId.system_comm == 1 &&
  (tr.takeWhile (fun e => !(isCollective e))).contains
    (Event.commCreate CommId.system_comm) &&
  createCount tr CommId.cuda_managed_comm == (if globM then 1 else 0) &&
  createCount tr CommId.cuda_device_comm ==
    (if !globM && globD then 1 else 0) &&
  freeCount tr CommId.system_comm == createCount tr CommId.system_comm &&
  freeCount tr CommId.cuda_managed_comm ==
    createCount tr CommId.cuda_managed_comm &&
  freeCount tr CommId.cuda_device_comm ==
    createCount tr CommId.cuda_device_comm &&
  (tr.dropWhile (fun e => !(e == Event.sessionFinalize))).countP
    (fun e => isCommFree e) == 0

/-- A collective call's buffer kind matches its communicator's asserted kind;
non-collective events satisfy this vacuously. -/
def collMatchOk : Event → Bool
  | Event.collective b c => bufKind b == commKind c
  | _ => true

/-- Does the event touch the given buffer? -/
def usesBuf (b : BufId) : Event → Bool
  | Event.hostWrite b2 => b == b2
  | Event.hostRead b2 => b == b2
  | Event.asyncCopy s d => b == s || b == d
  | Event.collective b2 _ => b == b2
  | Event.bufFree b2 => b == b2
  | _ => false

/-- No event uses buffer `b` before the next stream synchronization. -/
def noUseBeforeSync (b : BufId) : List Event → Bool
  | [] => true
  | Event.streamSync :: _ => true
  | e :: rest => !(usesBuf b e) && noUseBeforeSync b rest

/-- Every asynchronous copy is followed by a stream synchronization before
any event that reads, writes, reduces over, copies, or frees either the
source or the destination region. -/
def copySyncOk : List Event → Bool
  | [] => true
  | Event.asyncCopy s d :: rest =>
    noUseBeforeSync s rest && noUseBeforeSync d rest && copySyncOk rest
  | _ :: rest => copySyncOk rest

lemma allAnd_eq_true_iff (bs : List Bool) :
    allAnd bs = true ↔ ∀ b ∈ bs, b = true := by
  induction bs with
  | nil => simp [allAnd]
  | cons b bs ih =>
    unfold allAnd at *
    rw [List.foldr_cons, Bool.and_eq_true, ih]
    simp

lemma allAnd_map_iff (caps : List Caps) (f : Caps → Bool) :
    allAnd (caps.map f) = true ↔ ∀ c ∈ caps, f c = true := by
  rw [allAnd_eq_true_iff]
  simp

lemma commonlySupported_iff (caps : List Caps) (k : MemKind) :
    commonlySupported caps k = true ↔ ∀ c ∈ caps, kindSupported c k = true := by
  simp [commonlySupported, List.all_eq_true]

lemma allAnd_perm (caps caps' : List Caps)
    (hmem : ∀ c : Caps, c ∈ caps ↔ c ∈ caps') (f : Caps → Bool) :
    allAnd (caps.map f) = allAnd (caps'.map f) := by
  cases hc : allAnd (caps'.map f) with
  | true =>
    rw [allAnd_map_iff]
    intro c hcm
    exact (allAnd_map_iff caps' f).1 hc c ((hmem c).1 hcm)
  | false =>
    cases hc2 : allAnd (caps.map f) with
    | false => rfl
    | true =>
      exfalso
      have hcontra : allAnd (caps'.map f) = true := by
        rw [allAnd_map_iff]
        intro c hcm
        exact (allAnd_map_iff caps f).1 hc2 c ((hmem c).2 hcm)
      exact Bool.noConfusion (hcontra.symm.trans hc)

lemma not_both_ids (k : List Char)
    (h : strcaseEq k ("cuda:managed".data) = true) :
    strcaseEq k ("cuda:device".data) = false := by
  unfold strcaseEq at *
  rw [beq_iff_eq] at h
  rw [beq_eq_false_iff_ne]
  intro hcontra
  rw [h] at hcontra
  exact absurd hcontra (by decide)

lemma parseLoop_managed (ts : List (List Char)) (m d : Bool) :
    (parseLoop ts m d).managed =
      (m || ts.any (fun t => strcaseEq t ("cuda:managed".data))) := by
  induction ts generalizing m d with
  | nil => simp [parseLoop]
  | cons k rest ih =>
    by_cases h1 : strcaseEq k ("cuda:managed".data) = true
    · simp [parseLoop, h1, ih]
    · by_cases h2 : strcaseEq k ("cuda:device".data) = true
      · simp [parseLoop, h1, h2, ih]
      · simp [parseLoop, h1, h2, ih]

lemma parseLoop_device (ts : List (List Char)) (m d : Bool) :
    (parseLoop ts m d).device =
      (d || ts.any (fun t => strcaseEq t ("cuda:device".data))) := by
  induction ts generalizing m d with
  | nil => simp [parseLoop]
  | cons k rest ih =>
    by_cases h1 : strcaseEq k ("cuda:managed".data) = true
    · have h2 := not_both_ids k h1
      simp [parseLoop, h1, h2, ih]
    · by_cases h2 : strcaseEq k ("cuda:device".data) = true
      · simp [parseLoop, h1, h2, ih]
      · simp [parseLoop, h1, h2, ih]

lemma sumOf_replicate_one (n : Nat) :
    sumOf (List.replicate n (1 : Int)) = (n : Int) := by
  induction n with
  | zero => simp [sumOf]
  | succ k ih =>
    rw [List.replicate_succ]
    unfold sumOf at *
    rw [List.foldr_cons, ih]
    push_cast
    ring

lemma allreduceSum_ones (n : Nat) :
    allreduceSum (List.replicate n (1 : Int)) = List.replicate n (n : Int) := by
  unfold allreduceSum
  rw [List.length_replicate, sumOf_replicate_one]

lemma mem_zip_replicate {a b : Int} {n : Nat} {p : Int × Int}
    (h : p ∈ (List.replicate n a).zip (List.replicate n b)) : p = (a, b) := by
  induction n with
  | zero => simp at h
  | succ k ih =>
    rw [List.replicate_succ, List.replicate_succ, List.zip_cons_cons] at h
    rcases List.mem_cons.1 h with h1 | h2
    · exact h1
    · exact ih h2

end MemAlloc

namespace MemAlloc

/-- C1: the negotiated kind is commonly supported, and it is maximal in the
preference order among the commonly supported kinds (so it equals the
highest-preference kind present in every process's set, and System when no
accelerator kind is common to all, System being always supported). -/
theorem negotiate_is_best (caps : List Caps) :
    commonlySupported caps (negotiate caps) = true ∧
    ∀ k : MemKind, commonlySupported caps k = true →
      pref k ≤ pref (negotiate caps) := by
  unfold negotiate
  cases hm : allAnd (caps.map Caps.managed) with
  | true =>
    simp only [hm, if_true]
    refine ⟨?_, ?_⟩
    · rw [commonlySupported_iff]
      intro c hc
      simpa [kindSupported] using (allAnd_map_iff caps Caps.managed).1 hm c hc
    · intro k _
      cases k <;> simp [pref]
  | false =>
    simp only [hm, Bool.false_eq_true, if_false]
    cases hd : allAnd (caps.map Caps.device) with
    | true =>
      simp only [hd, if_true]
      refine ⟨?_, ?_⟩
      · rw [commonlySupported_iff]
        intro c hc
        simpa [kindSupported] using (allAnd_map_iff caps Caps.device).1 hd c hc
      · intro k hk
        cases k with
        | System => simp [pref]
        | Device => simp [pref]
        | Managed =>
          exfalso
          rw [commonlySupported_iff] at hk
          have hAll : allAnd (caps.map Caps.managed) = true := by
            rw [allAnd_map_iff]
            intro c hc
            simpa [kindSupported] using hk c hc
          exact Bool.noConfusion (hAll.symm.trans hm)
    | false =>
      simp only [hd, Bool.false_eq_true, if_false]
      refine ⟨?_, ?_⟩
      · rw [commonlySupported_iff]
        intro c _
        simp [kindSupported]
      · intro k hk
        cases k with
        | System => simp [pref]
        | Device =>
          exfalso
          rw [commonlySupported_iff] at hk
          have hAll : allAnd (caps.map Caps.device) = true := by
            rw [allAnd_map_iff]
            intro c hc
            simpa [kindSupported] using hk c hc
          exact Bool.noConfusion (hAll.symm.trans hd)
        | Managed =>
          exfalso
          rw [commonlySupported_iff] at hk
          have hAll : allAnd (caps.map Caps.managed) = true := by
            rw [allAnd_map_iff]
            intro c hc
            simpa [kindSupported] using hk c hc
          exact Bool.noConfusion (hAll.symm.trans hm)

/-- Witness for `negotiate_is_best` at a concrete capability assignment. -/
theorem negotiate_is_best_witness :
    commonlySupported [Caps.mk true true, Caps.mk true false]
      (negotiate [Caps.mk true true, Caps.mk true false]) = true ∧
    pref MemKind.System ≤
      pref (negotiate [Caps.mk true true, Caps.mk true false]) :=
  ⟨(negotiate_is_best [Caps.mk true true, Caps.mk true false]).1,
   (negotiate_is_best [Caps.mk true true, Caps.mk true false]).2
     MemKind.System (by decide)⟩

/-- C9: the negotiated kind is invariant under any permutation of which
process holds which capability set. -/
theorem negotiate_perm_invariant (caps caps' : List Caps)
    (h : caps.Perm caps') : negotiate caps = negotiate caps' := by
  have hmem : ∀ c : Caps, c ∈ caps ↔ c ∈ caps' := fun c => h.mem_iff
  unfold negotiate
  rw [allAnd_perm caps caps' hmem Caps.managed,
      allAnd_perm caps caps' hmem Caps.device]

/-- Witness for `negotiate_perm_invariant` at a concrete transposition. -/
theorem negotiate_perm_invariant_witness :
    negotiate [Caps.mk true true, Caps.mk false true] =
    negotiate [Caps.mk false true, Caps.mk true true] :=
  negotiate_perm_invariant _ _
    (List.Perm.swap (Caps.mk false true) (Caps.mk true true) [])

/-- C3 counterexample: on the value string " cuda:managed" (one token with a
leading space) the claim as stated predicts the managed flag is set, because
after trimming and case folding the token equals the identifier; but the code
compares the untrimmed token with `strcasecmp` and leaves the flag unset. -/
theorem parseKinds_trim_counterexample :
    specTokenMatch (" cuda:managed".data) ("cuda:managed".data) = true ∧
    (parseKinds true (" cuda:managed".data)).managed = false := by
  constructor
  · decide
  · decide

/-- C3 (amended: no trimming is performed): when the capability key is absent
the parse yields the empty capability set rather than failing; when it is
present, a kind flag is set iff some comma-separated token, compared
case-insensitively against that kind's identifier exactly as split (without
trimming), equals it; unrecognized tokens are ignored. -/
theorem parseKinds_characterization (flag : Bool) (s : List Char) :
    (parseKinds false s = Caps.mk false false) ∧
    ((parseKinds flag s).managed = true ↔
      (flag = true ∧
        ∃ t ∈ strsepSplit s, strcaseEq t ("cuda:managed".data) = true)) ∧
    ((parseKinds flag s).device = true ↔
      (flag = true ∧
        ∃ t ∈ strsepSplit s, strcaseEq t ("cuda:device".data) = true)) := by
  refine ⟨rfl, ?_, ?_⟩
  · cases flag with
    | false => simp [parseKinds]
    | true =>
      simp only [parseKinds, if_true]
      rw [parseLoop_managed]
      simp [List.any_eq_true]
  · cases flag with
    | false => simp [parseKinds]
    | true =>
      simp only [parseKinds, if_true]
      rw [parseLoop_device]
      simp [List.any_eq_true]

/-- C2: on every execution path each process seeds its buffer with 1 and the
value read at the verification assert (the host scratch buffer on the
fallback path, the reduced buffer itself otherwise) equals the number of
participating processes, on every process. -/
theorem reduction_value_eq_nranks (caps : List Caps) (pr : PState × Int)
    (h : pr ∈ groupExec caps) : pr.2 = (caps.length : Int) := by
  unfold groupExec at h
  split at h
  · rw [allreduceSum_ones] at h
    rcases List.mem_map.1 h with ⟨v, hv, hpr⟩
    have hveq := List.eq_of_mem_replicate hv
    rw [← hpr, hveq]
  · split at h
    · rw [allreduceSum_ones] at h
      rcases List.mem_map.1 h with ⟨p, hp, hpr⟩
      have hpe : p = (1, (caps.length : Int)) := mem_zip_replicate hp
      rw [← hpr, hpe]
    · rw [allreduceSum_ones] at h
      rcases List.mem_map.1 h with ⟨p, hp, hpr⟩
      have hpe : p = ((caps.length : Int), (caps.length : Int)) :=
        mem_zip_replicate hp
      rw [← hpr, hpe]

/-- Witness for `reduction_value_eq_nranks` on a concrete one-process group. -/
theorem reduction_value_eq_nranks_witness :
    (PState.mk (some (1 : Int)) none none, (1 : Int)) ∈
      groupExec [Caps.mk true true] ∧
    ((PState.mk (some (1 : Int)) none none, (1 : Int)) : PState × Int).2 =
      (([Caps.mk true true] : List Caps).length : Int) :=
  ⟨by decide, reduction_value_eq_nranks [Caps.mk true true] _ (by decide)⟩

/-- C4 (code bug exhibited): on the device direct path the verification
`assert((*device_buf) == nranks)` at line 137 dereferences the device buffer
from host code, so the trace contains a direct host read of a Device-kind
region — contradicting the claim that host code never directly reads a
Device buffer. -/
theorem host_reads_device_buf :
    Event.hostRead BufId.device_buf ∈ (mainTrace true true false true).1 ∧
    bufKind BufId.device_buf = MemKind.Device := by
  constructor
  · decide
  · rfl

/-- C5: on every completed run (exit code 0), exactly one baseline System
communicator is created, before any collective executes; at most one
additional communicator is created, and only for the negotiated accelerator
kind; every created communicator is released exactly once, before session
finalization, and a communicator never created is never released. -/
theorem comm_lifecycle (fp mo gm gd : Bool)
    (h : (mainTrace fp mo gm gd).2 = 0) :
    commLifecycleOk (mainTrace fp mo gm gd).1 gm gd = true := by
  revert h
  cases fp <;> cases mo <;> cases gm <;> cases gd <;> decide

/-- Witness for `comm_lifecycle` at a concrete completed run. -/
theorem comm_lifecycle_witness :
    commLifecycleOk (mainTrace true true false true).1 false true = true :=
  comm_lifecycle true true false true (by decide)

/-- C6: in every collective operation the program performs, on any input
combination, the communicator's asserted memory kind equals the memory kind
of the buffer passed to it (negotiation AND-reductions on host flags and the
fallback reduction on the host scratch use the System communicator, the
managed-buffer reduction the Managed one, the device-buffer reduction the
Device one). -/
theorem collective_kind_match (fp mo gm gd : Bool) :
    (mainTrace fp mo gm gd).1.all collMatchOk = true := by
  cases fp <;> cases mo <;> cases gm <;> cases gd <;> decide

/-- C7: every asynchronous accelerator copy in every run is followed by a
stream synchronization before any event that reads, reduces over, copies, or
frees the staged region. -/
theorem async_copy_synced (fp mo gm gd : Bool) :
    copySyncOk (mainTrace fp mo gm gd).1 = true := by
  cases fp <;> cases mo <;> cases gm <;> cases gd <;> decide

/-- C8: the run exits 0 on success and exits 1 exactly when the capability
string scratch allocation fails; in the failure case the trace contains no
group-wide operation (no communicator creation and no collective call). -/
theorem exit_code_spec (fp mo gm gd : Bool) :
    ((mainTrace fp mo gm gd).2 = if fp && !mo then 1 else 0) ∧
    ((mainTrace fp mo gm gd).2 = 1 →
      (mainTrace fp mo gm gd).1.all (fun e => !(isGroupOp e)) = true) := by
  cases fp <;> cases mo <;> cases gm <;> cases gd <;> exact ⟨by decide, by decide⟩

/-- Witness for `exit_code_spec` at the allocation-failure input. -/
theorem exit_code_spec_witness :
    ((mainTrace true false true true).2 = if true && !false then 1 else 0) ∧
    (mainTrace true false true true).1.all (fun e => !(isGroupOp e)) = true :=
  ⟨(exit_code_spec true false true true).1,
   (exit_code_spec true false true true).2 (by decide)⟩

/-- C10: on the device direct path (Managed not mutually supported, Device
mutually supported) the host system buffer is written exactly once — the
`*system_buf = 1` seed before staging — and still holds 1 at the moment it is
freed; the reduction and verification modify only the device buffer. -/
theorem device_path_system_frame (caps : List Caps)
    (hm : allAnd (caps.map Caps.managed) = false)
    (hd : allAnd (caps.map Caps.device) = true) :
    (∀ pr ∈ groupExec caps, pr.1.system_buf = some 1) ∧
    (∀ fp mo : Bool, (mainTrace fp mo false true).2 = 0 →
      (mainTrace fp mo false true).1.countP
        (fun e => e == Event.hostWrite BufId.system_buf) = 1) := by
  constructor
  · intro pr h
    unfold groupExec at h
    simp only [hm, hd, Bool.false_eq_true, if_false, if_true] at h
    rw [allreduceSum_ones] at h
    rcases List.mem_map.1 h with ⟨p, hp, hpr⟩
    have hpe : p = (1, (caps.length : Int)) := mem_zip_replicate hp
    rw [← hpr, hpe]
  · intro fp mo h
    revert h
    cases fp <;> cases mo <;> decide

/-- Witness for `device_path_system_frame` on a concrete one-process group. -/
theorem device_path_system_frame_witness :
    (PState.mk none (some (1 : Int)) (some (1 : Int)), (1 : Int)).1.system_buf
      = some 1 ∧
    (mainTrace true true false true).1.countP
      (fun e => e == Event.hostWrite BufId.system_buf) = 1 :=
  ⟨(device_path_system_frame [Caps.mk false true] (by decide) (by decide)).1
      _ (by decide),
   (device_path_system_frame [Caps.mk false true] (by decide) (by decide)).2
      true true (by decide)⟩

end MemAlloc
